import Mathlib

/-!
Verification development for the snmp-mqtt-bridge polling and translation
engine.  The Go source is shallowly embedded: Go interface values that
flow through the poller become the sum type `Value`; Go `float64`
arithmetic is modelled exactly over `ℚ` (so `math.Round(x*100)/100`
becomes an exact rational operation); Go maps become association lists
with an insert that keeps keys unique, and where the source iterates over
a map the association-list order stands for the iteration order chosen by
the runtime.  Library string functions called by the source
(`strings.Split`, `strings.TrimSpace`, `fmt.Sscanf` with `%d`/`%f`,
`strconv.ParseFloat`) are modelled by executable char-list functions with
the same behaviour on the decimal forms the bridge meets; exponent and
non-ASCII forms are out of the modelled fragment.
-/

/-- The neutral value type produced by the value decoder: Go `interface{}`
payloads as the poller sees them.  `vNull` stands for the Go nil
interface. -/
inductive Value where
  | vInt (n : Int)
  | vFloat (q : ℚ)
  | vStr (s : String)
  | vNull
deriving DecidableEq, Repr

/-- SNMP PDU type tags, following the gosnmp tags the source matches on. -/
inductive PDUType where
  | octetString
  | integer
  | counter32
  | counter64
  | gauge32
  | timeTicks
  | uinteger32
  | objectIdentifier
  | ipAddress
  | noSuchObject
  | noSuchInstance
  | nullType
  | endOfMib
deriving DecidableEq, Repr

/-- A raw variable binding returned by an SNMP GET (gosnmp.SnmpPDU):
an OID name, a type tag and the decoded payload. -/
structure SnmpPDU where
  name : String
  ptype : PDUType
  value : Value
deriving DecidableEq, Repr

/-- OID mapping value type (domain.OIDType). -/
inductive OIDType where
  | tString
  | tInteger
  | tGauge
  | tCounter
  | tBool
  | tEnum
  | tCompositeSwitch
deriving DecidableEq, Repr

/-- Home Assistant component type (domain.HAComponent). -/
inductive HAComponent where
  | sensor
  | binarySensor
  | switchC
  | button
  | numberC
  | selectC
deriving DecidableEq, Repr

/-- domain.OIDMapping: how one OID (or one field of a composite OID value)
becomes one entity.  `enumValues` models the Go `map[int]string` as an
association list whose order is the map iteration order; a well-formed
map has no duplicate keys.  `scale : ℚ` models the float64 field. -/
structure OIDMapping where
  oid : String
  name : String
  mtype : OIDType
  scale : ℚ
  enumValues : List (Int × String)
  haComponent : HAComponent
  deviceClass : String
  writable : Bool
  writeOID : String
  pollGroup : String
  compositeIndex : Nat
  compositeSeparator : String
deriving DecidableEq, Repr

/-- Per-device poller state relevant to OID selection (devicePoller):
the cached profile (its mapping list; `none` when the device has no
profile), the learned missing-OID set, and the poll counter. -/
structure DevicePoller where
  profile : Option (List OIDMapping)
  missing : List String
  pollCount : Nat
deriving DecidableEq, Repr

/-- ASCII whitespace recognised by the trim model (the characters
`Char.isWhitespace` accepts, which cover the bytes TrimSpace strips in
the values this bridge meets). -/
def isSpaceChar (c : Char) : Bool :=
  c == ' ' || c == '\t' || c == '\n' || c == '\r'

/-- Strip leading and trailing whitespace from a char list. -/
def trimChars (l : List Char) : List Char :=
  ((l.dropWhile isSpaceChar).reverse.dropWhile isSpaceChar).reverse

/-- Model of strings.TrimSpace. -/
def goTrimSpace (s : String) : String :=
  ⟨trimChars s.data⟩

/-- If `sep` is a leading segment of `l`, return the remainder. -/
def dropSep : List Char → List Char → Option (List Char)
  | [], l => some l
  | _ :: _, [] => none
  | c :: cs, d :: ds => if d = c then dropSep cs ds else none

/-- Fuelled worker for the split model: `cur` is the current field in
reverse; each recursive call consumes at least one char of `l`, so fuel
`l.length` always suffices. -/
def goSplitAux (sep : List Char) : Nat → List Char → List Char → List (List Char)
  | 0, cur, l => [cur.reverse ++ l]
  | fuel + 1, cur, l =>
    match l with
    | [] => [cur.reverse]
    | c :: cs =>
      match dropSep sep l with
      | some rest => cur.reverse :: goSplitAux sep fuel [] rest
      | none => goSplitAux sep fuel (c :: cur) cs

/-- Model of strings.Split for a non-empty separator: split around each
leftmost occurrence of `sep`; the result always has at least one field
and a trailing separator yields a trailing empty field. -/
def goSplit (s sep : String) : List String :=
  (goSplitAux sep.data (s.data.length + 1) [] s.data).map fun cs => ⟨cs⟩

/-- Numeric value of a digit run. -/
def digitsVal (ds : List Char) : Nat :=
  ds.foldl (fun acc c => acc * 10 + (c.toNat - 48)) 0

/-- Model of fmt.Sscanf with verb `%d` on an already-trimmed token: an
optional sign followed by at least one decimal digit; trailing
non-digit characters are ignored, exactly as the Go scanner leaves
unconsumed input behind. -/
def parseLeadingInt (s : String) : Option Int :=
  let (sign, rest) :=
    match s.data with
    | '-' :: cs => ((-1 : Int), cs)
    | '+' :: cs => ((1 : Int), cs)
    | cs => ((1 : Int), cs)
  let ds := rest.takeWhile Char.isDigit
  if ds.isEmpty then none else some (sign * (digitsVal ds : Int))

/-- Value of an optional-fraction decimal literal `ds . fs`. -/
def decimalVal (sign : Int) (ds fs : List Char) : ℚ :=
  (sign : ℚ) * ((digitsVal ds : ℚ) + (digitsVal fs : ℚ) / (10 : ℚ) ^ fs.length)

/-- Model of strconv.ParseFloat on the plain decimal forms the bridge
meets (optional sign, digits, optional fraction; the whole string must
be consumed).  Exponent, hex and infinity forms are outside the model. -/
def parseGoFloat (s : String) : Option ℚ :=
  let (sign, rest) :=
    match s.data with
    | '-' :: cs => ((-1 : Int), cs)
    | '+' :: cs => ((1 : Int), cs)
    | cs => ((1 : Int), cs)
  let ds := rest.takeWhile Char.isDigit
  let r1 := rest.dropWhile Char.isDigit
  match r1 with
  | [] => if ds.isEmpty then none else some (decimalVal sign ds [])
  | '.' :: r2 =>
    let fs := r2.takeWhile Char.isDigit
    let r3 := r2.dropWhile Char.isDigit
    if r3.isEmpty then
      if ds.isEmpty && fs.isEmpty then none else some (decimalVal sign ds fs)
    else none
  | _ => none

/-- Model of fmt.Sscanf with verb `%f` as used by toFloat64: parse a
leading decimal number, and leave the output at zero when nothing
parses (the source ignores the scan error). -/
def sscanfFloat (s : String) : ℚ :=
  let (sign, rest) :=
    match s.data with
    | '-' :: cs => ((-1 : Int), cs)
    | '+' :: cs => ((1 : Int), cs)
    | cs => ((1 : Int), cs)
  let ds := rest.takeWhile Char.isDigit
  let r1 := rest.dropWhile Char.isDigit
  match r1 with
  | '.' :: r2 =>
    let fs := r2.takeWhile Char.isDigit
    if ds.isEmpty && fs.isEmpty then 0 else decimalVal sign ds fs
  | _ => if ds.isEmpty then 0 else decimalVal sign ds []

/-- ASCII uppercase of one char, as strings.ToUpper acts on the ASCII
payloads this bridge compares. -/
def charUpper (c : Char) : Char :=
  if 'a' ≤ c && c ≤ 'z' then Char.ofNat (c.toNat - 32) else c

/-- ASCII model of strings.ToUpper. -/
def asciiUpper (s : String) : String :=
  ⟨s.data.map charUpper⟩

/-- ASCII model of strings.EqualFold. -/
def equalFold (a b : String) : Bool :=
  asciiUpper a == asciiUpper b

/-- math.Round: round half away from zero, as an integer-valued
rational. -/
def goRound (q : ℚ) : ℚ :=
  if 0 ≤ q then (⌊q + 1 / 2⌋ : ℤ) else (⌈q - 1 / 2⌉ : ℤ)

/-- Go map lookup on an association list (first binding of the key). -/
def goLookup {α β : Type} [DecidableEq α] : List (α × β) → α → Option β
  | [], _ => none
  | p :: m, k => if p.1 = k then some p.2 else goLookup m k

/-- Drop every binding of a key from an association list. -/
def removeKey {α β : Type} [DecidableEq α] : List (α × β) → α → List (α × β)
  | [], _ => []
  | p :: m, k => if p.1 = k then removeKey m k else p :: removeKey m k

/-- Go map insert on an association list: drop any existing binding of
the key and append the new one, so keys stay unique and lookups see the
latest write. -/
def goInsert {α β : Type} [DecidableEq α] (m : List (α × β)) (k : α) (v : β) :
    List (α × β) :=
  removeKey m k ++ [(k, v)]

/-- Membership test used where the source checks a Go set or scans a
slice. -/
def goContains {α : Type} [DecidableEq α] : List α → α → Bool
  | [], _ => false
  | a :: l, x => if a = x then true else goContains l x

/-- normalizeOID (poller.go): strip exactly one leading dot. -/
def normalizeOID (oid : String) : String :=
  match oid.data with
  | '.' :: rest => ⟨rest⟩
  | _ => oid

/-- parseValue (poller.go): decode a PDU into a neutral value.  The
no-such sentinels and ASN.1 null decode to the Go nil interface
(`vNull`); value-carrying tags pass the payload through. -/
def parseValue (pdu : SnmpPDU) : Value :=
  match pdu.ptype with
  | .octetString => pdu.value
  | .integer => pdu.value
  | .counter32 => pdu.value
  | .counter64 => pdu.value
  | .gauge32 => pdu.value
  | .timeTicks => pdu.value
  | .uinteger32 => pdu.value
  | .objectIdentifier => pdu.value
  | .noSuchObject => Value.vNull
  | .noSuchInstance => Value.vNull
  | .nullType => Value.vNull
  | _ => pdu.value

/-- The numeric-coercion switch inside transformValue (poller.go): Go
ints, uints and floats are numeric, and a string is numeric when
strconv.ParseFloat accepts it. -/
def coerceNumeric (v : Value) : Option ℚ :=
  match v with
  | .vInt n => some (n : ℚ)
  | .vFloat q => some q
  | .vStr s => parseGoFloat s
  | .vNull => none

/-- The effective composite separator: CompositeSeparator, defaulting to
a comma when unset. -/
def sepOf (m : OIDMapping) : String :=
  if m.compositeSeparator = "" then "," else m.compositeSeparator

/-- extractCompositeValue (poller.go): pull one field out of a
separator-joined string.  Non-string inputs pass through; an index past
the last field yields the Go nil (`vNull`); the chosen field is trimmed
and, when a leading integer parses, mapped through enumValues. -/
def extractCompositeValue (value : Value) (m : OIDMapping) : Value :=
  match value with
  | .vStr strValue =>
    let parts := goSplit strValue (sepOf m)
    if m.compositeIndex ≥ parts.length then Value.vNull
    else
      let partValue := goTrimSpace (parts.getD m.compositeIndex "")
      match parseLeadingInt partValue with
      | some intVal =>
        match goLookup m.enumValues intVal with
        | some name => Value.vStr name
        | none => Value.vInt intVal
      | none => Value.vStr partValue
  | v => v

/-- transformValue (poller.go): composite extraction first, then the
scale branch (returning a rounded float when the input coerces to a
number), then the enum branch for integral inputs, else the value
unchanged. -/
def transformValue (value : Value) (m : OIDMapping) : Value :=
  if m.mtype = OIDType.tCompositeSwitch then extractCompositeValue value m
  else
    let scaledResult : Option Value :=
      if m.scale ≠ 0 then
        match coerceNumeric value with
        | some numericValue =>
          let scaled := numericValue * m.scale
          if m.scale < 1 / 100 then some (Value.vFloat (goRound (scaled * 1000) / 1000))
          else some (Value.vFloat (goRound (scaled * 100) / 100))
        | none => none
      else none
    match scaledResult with
    | some r => r
    | none =>
      if m.mtype = OIDType.tEnum then
        match value with
        | .vInt n =>
          match goLookup m.enumValues n with
          | some name => Value.vStr name
          | none => value
        | _ => value
      else value

/-- toFloat64 (poller.go): best-effort float coercion, parsing a leading
decimal from strings and treating everything else as zero. -/
def toFloat64 (v : Value) : ℚ :=
  match v with
  | .vFloat q => q
  | .vInt n => (n : ℚ)
  | .vStr s => sscanfFloat s
  | .vNull => 0

/-- calculateDerivedValues (poller.go): when Active Power is zero or
absent and both Voltage and Total Current are positive, store their
product rounded to one decimal under Active Power. -/
def calculateDerivedValues (values : List (String × Value)) : List (String × Value) :=
  let activePower := toFloat64 ((goLookup values "Active Power").getD Value.vNull)
  if activePower = 0 then
    let voltage := toFloat64 ((goLookup values "Voltage").getD Value.vNull)
    let current := toFloat64 ((goLookup values "Total Current").getD Value.vNull)
    if 0 < voltage ∧ 0 < current then
      goInsert values "Active Power" (Value.vFloat (goRound (voltage * current * 10) / 10))
    else values
  else values

/-- The poll-cadence divisor for a mapping (the pollGroups table in
getOIDsToPoll): frequent every cycle, static every tenth, unknown
groups treated as frequent. -/
def groupIntervalOf (m : OIDMapping) : Nat :=
  let group := if m.pollGroup = "" then "frequent" else m.pollGroup
  if group = "frequent" then 1 else if group = "static" then 10 else 1

/-- getOIDsToPoll (poller.go): walk the profile mappings in order, keep
each mapping due this cycle whose normalized OID is not in the learned
missing set, and deduplicate (the Go oidSet); the list order stands for
the set-iteration order.  No profile yields the empty list. -/
def getOIDsToPoll (dp : DevicePoller) : List String :=
  match dp.profile with
  | none => []
  | some mappings =>
    mappings.foldl
      (fun oids m =>
        if dp.pollCount % groupIntervalOf m = 0 then
          if goContains dp.missing (normalizeOID m.oid) then oids
          else if goContains oids m.oid then oids else oids ++ [m.oid]
        else oids)
      []

/-- The two base OIDs doPoll falls back to: sysDescr and sysUpTime. -/
def baseOIDs : List String :=
  [".1.3.6.1.2.1.1.1.0", ".1.3.6.1.2.1.1.3.0"]

/-- The OID list a poll cycle actually sends (doPoll): the computed
profile list, or the base OIDs whenever that list is empty. -/
def computePollOIDs (dp : DevicePoller) : List String :=
  let oids := getOIDsToPoll dp
  if oids.isEmpty then baseOIDs else oids

/-- The oidToMappings index doPoll builds: all profile mappings whose
normalized OID equals the given one, in profile order (multiple
composite mappings may share an OID). -/
def oidLookup (profile : List OIDMapping) (nOID : String) : List OIDMapping :=
  profile.filter (fun m => normalizeOID m.oid == nOID)

/-- The per-binding loop of doPoll over a successful GET result: a
no-such binding records its normalized OID in the missing set and is
skipped; a nil-decoding binding is skipped; otherwise every mapping
keyed by the normalized OID stores its transformed value under the
mapping name, and the raw value is stored under the binding name. -/
def processVariables (oidToM : String → List OIDMapping)
    (missing : List String) (values : List (String × Value))
    (vars : List SnmpPDU) : List String × List (String × Value) :=
  vars.foldl
    (fun acc pdu =>
      let nOID := normalizeOID pdu.name
      if pdu.ptype = PDUType.noSuchInstance ∨ pdu.ptype = PDUType.noSuchObject then
        (if goContains acc.1 nOID then acc.1 else acc.1 ++ [nOID], acc.2)
      else
        let value := parseValue pdu
        if value = Value.vNull then acc
        else
          let vals :=
            (oidToM nOID).foldl
              (fun vs m => goInsert vs m.name (transformValue value m)) acc.2
          (acc.1, goInsert vals pdu.name value))
    (missing, values)

/-- One poll cycle of doPoll restricted to OID selection and response
processing: bump the counter, compute the GET list (with the base-OID
fallback), then fold the returned bindings; returns the updated poller
record, the OID list that was sent, and the values gathered. -/
def pollOnce (dp : DevicePoller) (responses : List SnmpPDU) :
    DevicePoller × List String × List (String × Value) :=
  let dp1 : DevicePoller := { dp with pollCount := dp.pollCount + 1 }
  let oids := computePollOIDs dp1
  let profile := dp1.profile.getD []
  let (missing1, values) := processVariables (oidLookup profile) dp1.missing [] responses
  ({ dp1 with missing := missing1 }, oids, values)

/-- domain.DeviceState restricted to the fields the poller maintains
(timestamps are dropped from the model). -/
structure DevState where
  online : Bool
  values : List (String × Value)
  errors : List String
deriving DecidableEq, Repr

/-- StateUpdateEvent (poller.go), without the timestamp. -/
structure StateUpdateEvent where
  deviceId : String
  values : List (String × Value)
  online : Bool
deriving DecidableEq, Repr

/-- The poller-service state visible to the claims: the device-state map
and the ordered list of events delivered to subscribers. -/
structure SvcState where
  states : List (String × DevState)
  events : List StateUpdateEvent
deriving DecidableEq, Repr

/-- The empty poller service. -/
def initSvc : SvcState :=
  ⟨[], []⟩

/-- The merge loop of updateState: write every pair of the poll values
into the accumulated map, overwriting existing keys, never deleting. -/
def mergeValues (base : List (String × Value)) (vs : List (String × Value)) :
    List (String × Value) :=
  vs.foldl (fun acc p => goInsert acc p.1 p.2) base

/-- updateState (poller.go): fetch or recreate the device state, set
online and errors, merge the poll values (a nil map merges nothing),
store the state back and append an event carrying a copy of the full
accumulated map. -/
def updateStateOp (st : SvcState) (deviceID : String)
    (values : Option (List (String × Value))) (online : Bool)
    (errors : List String) : SvcState :=
  let cur := (goLookup st.states deviceID).getD ⟨false, [], []⟩
  let merged :=
    match values with
    | some vs => mergeValues cur.values vs
    | none => cur.values
  { states := goInsert st.states deviceID ⟨online, merged, errors⟩,
    events := st.events ++ [⟨deviceID, merged, online⟩] }

/-- AddDevice (poller.go) restricted to the state map: a no-op when the
device is present, else a fresh offline state with an empty value map. -/
def addDevice (st : SvcState) (id : String) : SvcState :=
  if (goLookup st.states id).isSome then st
  else { st with states := goInsert st.states id ⟨false, [], []⟩ }

/-- RemoveDevice (poller.go) restricted to the state map: close the stop
signal (not modelled), delete the state entry, and return without
waiting for the poll loop.  No event is emitted. -/
def removeDevice (st : SvcState) (id : String) : SvcState :=
  { st with states := removeKey st.states id }

/-- One completed poll delivered to updateState. -/
structure PollInput where
  values : Option (List (String × Value))
  online : Bool
  errors : List String
deriving DecidableEq, Repr

/-- A sequence of completed polls of one device, each ending in
updateState. -/
def runPolls (st : SvcState) (id : String) (polls : List PollInput) : SvcState :=
  polls.foldl (fun s p => updateStateOp s id p.values p.online p.errors) st

/-- The accumulated value map the service currently holds for a device
(fresh devices hold the empty map). -/
def svcValues (st : SvcState) (id : String) : List (String × Value) :=
  ((goLookup st.states id).getD ⟨false, [], []⟩).values

/-- True when a poll input writes the given key. -/
def pollHasKey (p : PollInput) (k : String) : Bool :=
  match p.values with
  | some vs => (goLookup vs k).isSome
  | none => false

/-- The full value-processing part of one poll cycle followed by the
state merge (doPoll: process bindings, derive values, updateState), for
a device with the given profile starting from a fresh service. -/
def pollCycleState (id : String) (profile : List OIDMapping)
    (missing : List String) (vars : List SnmpPDU) : SvcState :=
  let processed := processVariables (oidLookup profile) missing [] vars
  let values := calculateDerivedValues processed.2
  updateStateOp (addDevice initSvc id) id (some values) true []

/-- The select-options builder of PublishDevice (discovery): first scan
the integer keys 1..count in ascending order, then append, in map
iteration order, any value string not already present. -/
def buildSelectOptions (enumValues : List (Int × String)) : List String :=
  let firstPass :=
    (List.range enumValues.length).filterMap
      (fun j => goLookup enumValues (Int.ofNat j + 1))
  enumValues.foldl
    (fun opts p => if goContains opts p.2 then opts else opts ++ [p.2]) firstPass

/-- A value handed to the SNMP SET layer (sendSNMPSet accepts Go int or
string). -/
inductive SetValue where
  | i (n : Int)
  | s (str : String)
deriving DecidableEq, Repr

/-- The enum scan shared by the command converters: the first entry, in
map iteration order, whose label folds to On while the payload is ON, or
folds to Off while the payload is OFF. -/
def findSwitchKey (entries : List (Int × String)) (payloadUpper : String) : Option Int :=
  entries.findSome? fun p =>
    if (equalFold p.2 "On" && (payloadUpper == "ON")) ||
       (equalFold p.2 "Off" && (payloadUpper == "OFF")) then some p.1 else none

/-- convertPayloadToSNMPValue (MQTT publisher): translate an inbound
command payload into the SNMP SET value for a non-composite mapping. -/
def convertPayloadToSNMPValue (payload : String) (m : OIDMapping) :
    Except String SetValue :=
  let payloadUpper := asciiUpper payload
  if m.haComponent = HAComponent.switchC then
    match findSwitchKey m.enumValues payloadUpper with
    | some k => Except.ok (SetValue.i k)
    | none =>
      if payloadUpper = "ON" then Except.ok (SetValue.i 1)
      else Except.ok (SetValue.i 2)
  else if m.haComponent = HAComponent.selectC then
    match m.enumValues.findSome?
        (fun p => if equalFold p.2 payload then some p.1 else none) with
    | some k => Except.ok (SetValue.i k)
    | none => Except.error ("unknown select value: " ++ payload)
  else if m.haComponent = HAComponent.numberC then
    match parseLeadingInt payload with
    | some val => Except.ok (SetValue.i val)
    | none => Except.error ("invalid number: " ++ payload)
  else Except.ok (SetValue.s payload)

/-- convertCompositePayloadToSNMPValue (MQTT publisher): choose the field
value from the enum scan or the ON to 1 / OFF to 0 default, then splice
it into the current composite string read from the device (passed here
as `currentStr`). -/
def convertCompositePayloadToSNMPValue (payload currentStr : String)
    (m : OIDMapping) : Except String String :=
  let payloadUpper := asciiUpper payload
  let newValue :=
    match findSwitchKey m.enumValues payloadUpper with
    | some k => toString k
    | none => ""
  let newValue :=
    if newValue = "" then if payloadUpper = "ON" then "1" else "0"
    else newValue
  let parts := goSplit currentStr (sepOf m)
  if m.compositeIndex ≥ parts.length then
    Except.error "composite index out of range"
  else
    Except.ok (String.intercalate (sepOf m) (parts.set m.compositeIndex newValue))

/-- Trap severity (domain.TrapSeverity). -/
inductive Severity where
  | info
  | warning
  | error
  | critical
deriving DecidableEq, Repr

/-- determineSeverity (trap_receiver.go): scan the critical pattern list,
then the warning list, else info. -/
def determineSeverity (trapOID : String) : Severity :=
  let criticalPatterns := [".1.3.6.1.4.1.318.2.3.1", ".1.3.6.1.4.1.318.2.3.5"]
  let warningPatterns := [".1.3.6.1.4.1.318.2.3.2", ".1.3.6.1.4.1.318.2.3.4"]
  if criticalPatterns.any (fun p => trapOID == p) then Severity.critical
  else if warningPatterns.any (fun p => trapOID == p) then Severity.warning
  else Severity.info

/-- parseVariable (trap_receiver.go): like the poller decoder but with an
IPAddress case and a default that renders the payload with Go verb %v
(only the integer and nil renderings matter to the bridge). -/
def parseTrapVariable (pdu : SnmpPDU) : Value :=
  match pdu.ptype with
  | .octetString => pdu.value
  | .integer => pdu.value
  | .counter32 => pdu.value
  | .counter64 => pdu.value
  | .gauge32 => pdu.value
  | .timeTicks => pdu.value
  | .uinteger32 => pdu.value
  | .objectIdentifier => pdu.value
  | .ipAddress => pdu.value
  | _ =>
    match pdu.value with
    | .vStr s => Value.vStr s
    | .vInt n => Value.vStr (toString n)
    | .vFloat q => Value.vStr (toString q)
    | .vNull => Value.vStr "<nil>"

/-- formatMessage (trap_receiver.go): the hand-written message table,
with the fallback split on whether the trap carried any variables. -/
def formatMessage (trapOID : String) (vbs : List (String × Value)) : String :=
  if trapOID = ".1.3.6.1.4.1.318.2.3.1" then "UPS on battery power"
  else if trapOID = ".1.3.6.1.4.1.318.2.3.2" then "UPS returned to utility power"
  else if trapOID = ".1.3.6.1.4.1.318.2.3.5" then "UPS battery low"
  else if trapOID = ".1.3.6.1.4.1.318.2.3.4" then "Communication lost with UPS"
  else if vbs.length > 0 then
    "Trap " ++ trapOID ++ " with " ++ toString vbs.length ++ " variables"
  else "Trap " ++ trapOID

/-- The pure core of a TrapLog before persistence. -/
structure TrapCore where
  trapOID : String
  vbs : List (String × Value)
deriving DecidableEq, Repr

/-- The varbind walk of handleTrap (trap_receiver.go): the binding named
.1.3.6.1.6.3.1.1.4.1.0 supplies the trap OID when its decoded value is a
string; every other binding lands in the variables map. -/
def processTrapVars (vars : List SnmpPDU) : TrapCore :=
  vars.foldl
    (fun acc pdu =>
      let value := parseTrapVariable pdu
      if pdu.name = ".1.3.6.1.6.3.1.1.4.1.0" then
        match value with
        | .vStr o => { acc with trapOID := o }
        | _ => acc
      else { acc with vbs := goInsert acc.vbs pdu.name value })
    ⟨"", []⟩

/-- The severity and message of the TrapLog handleTrap constructs. -/
def trapLogOf (vars : List SnmpPDU) : TrapCore × Severity × String :=
  let core := processTrapVars vars
  (core, determineSeverity core.trapOID, formatMessage core.trapOID core.vbs)

/-- Round to `d` decimal places, half away from zero. -/
def roundTo (d : Nat) (q : ℚ) : ℚ :=
  goRound (q * (10 : ℚ) ^ d) / (10 : ℚ) ^ d

/-- Spec-side statement of the scaling rule, written from the claim: the
value is `round(x * scale, d)` with `d = 3` when `scale < 0.01` and
`d = 2` otherwise. -/
def scaleRoundSpec (scale x : ℚ) : ℚ :=
  if scale < 1 / 100 then roundTo 3 (x * scale) else roundTo 2 (x * scale)

/-- Spec-side statement of the composite transform, written from the
claim: split on the separator (default comma), null when the index is
past the last part, else trim the part and map a parsed integer through
enumValues, falling back to the integer, else to the trimmed string.
Integer parsing here is the same Sscanf leading-integer scan the source
uses. -/
def compositeClaimSpec (m : OIDMapping) (s : String) : Value :=
  let parts := goSplit s (sepOf m)
  if m.compositeIndex ≥ parts.length then Value.vNull
  else
    let t := goTrimSpace (parts.getD m.compositeIndex "")
    match parseLeadingInt t with
    | some n =>
      match goLookup m.enumValues n with
      | some label => Value.vStr label
      | none => Value.vInt n
    | none => Value.vStr t

/-- Spec-side severity table, written from the claim. -/
def severitySpec (oid : String) : Severity :=
  if oid = ".1.3.6.1.4.1.318.2.3.1" ∨ oid = ".1.3.6.1.4.1.318.2.3.5" then
    Severity.critical
  else if oid = ".1.3.6.1.4.1.318.2.3.2" ∨ oid = ".1.3.6.1.4.1.318.2.3.4" then
    Severity.warning
  else Severity.info

/-- The trap message lookup table. -/
def messageTable : List (String × String) :=
  [(".1.3.6.1.4.1.318.2.3.1", "UPS on battery power"),
   (".1.3.6.1.4.1.318.2.3.2", "UPS returned to utility power"),
   (".1.3.6.1.4.1.318.2.3.5", "UPS battery low"),
   (".1.3.6.1.4.1.318.2.3.4", "Communication lost with UPS")]

/-- Spec-side message rule exactly as the claim states it: table lookup
with the fallback `Trap oid with n variables` for every OID outside the
table. -/
def messageClaimSpec (oid : String) (n : Nat) : String :=
  match goLookup messageTable oid with
  | some msg => msg
  | none => "Trap " ++ oid ++ " with " ++ toString n ++ " variables"

/-- The amended message rule the source implements: the claimed fallback
only when the trap carried at least one variable, a shorter `Trap oid`
line otherwise. -/
def messageAmendedSpec (oid : String) (n : Nat) : String :=
  match goLookup messageTable oid with
  | some msg => msg
  | none =>
    if n > 0 then "Trap " ++ oid ++ " with " ++ toString n ++ " variables"
    else "Trap " ++ oid

/-- Keys of an association list. -/
def keysOf {α β : Type} (l : List (α × β)) : List α :=
  l.map Prod.fst

/-- An association list representing a Go map has pairwise-distinct
keys. -/
abbrev keysNodup {α β : Type} (l : List (α × β)) : Prop :=
  (keysOf l).Nodup

/-- A mapping skeleton for the concrete test inputs: a sensor with no
scale, no enum, everything else zeroed. -/
def mkMapping (oid name : String) (mtype : OIDType) : OIDMapping :=
  ⟨oid, name, mtype, 0, [], HAComponent.sensor, "", false, "", "", 0, ""⟩

/-- A composite_switch mapping that also carries a scale, for probing the
precedence of the composite branch over the scale branch. -/
def mCompScale : OIDMapping :=
  { mkMapping "1.2.3" "Outlet" OIDType.tCompositeSwitch with scale := 1 / 2 }

/-- An integer mapping scaled by one tenth (the Battery Voltage scenario
of the spec). -/
def mScaleTenth : OIDMapping :=
  { mkMapping "1.3.6.1.2.1.33.1.2.1.0" "Battery Voltage" OIDType.tInteger with
      scale := 1 / 10 }

/-- An Energenie-style composite outlet mapping for the second field. -/
def mComposite2 : OIDMapping :=
  { mkMapping "1.3.6.1.4.1.17420.1.2.9.1.13.0" "Outlet 2 State"
      OIDType.tCompositeSwitch with
      enumValues := [(0, "Off"), (1, "On")], compositeIndex := 1 }

/-- A composite outlet mapping whose index points past the fields the
device actually reports. -/
def mOutlet4 : OIDMapping :=
  { mkMapping "1.2.3" "Outlet 4 State" OIDType.tCompositeSwitch with
      enumValues := [(0, "Off"), (1, "On")], compositeIndex := 3 }

/-- The composite status binding the device answers with only two
fields. -/
def pduComposite : SnmpPDU :=
  ⟨".1.2.3", PDUType.octetString, Value.vStr "1,0"⟩

/-- A profile mapping sitting on the sysDescr base OID. -/
def mSysDescr : OIDMapping :=
  mkMapping ".1.3.6.1.2.1.1.1.0" "System Description" OIDType.tString

/-- A device that just joined the poller with that one-mapping profile. -/
def dpSys : DevicePoller :=
  ⟨some [mSysDescr], [], 0⟩

/-- The device reports sysDescr as noSuchObject. -/
def pduNoSuch : SnmpPDU :=
  ⟨".1.3.6.1.2.1.1.1.0", PDUType.noSuchObject, Value.vNull⟩

/-- The poller state after the first poll learned the missing OID. -/
def dpSys1 : DevicePoller :=
  (pollOnce dpSys [pduNoSuch]).1

/-- A switch mapping with the APC-style enum labels. -/
def mSwitchEnum : OIDMapping :=
  { mkMapping "1.2.3" "Outlet 1" OIDType.tInteger with
      haComponent := HAComponent.switchC,
      enumValues := [(1, "On"), (2, "Off")], writable := true }

/-- A switch mapping with no enum labels at all. -/
def mSwitchPlain : OIDMapping :=
  { mkMapping "1.2.3" "Outlet 1" OIDType.tInteger with
      haComponent := HAComponent.switchC, writable := true }

/-- A composite switch command mapping with no enum labels. -/
def mCompositeCmd : OIDMapping :=
  { mkMapping "1.2.3" "Outlet 2" OIDType.tCompositeSwitch with
      haComponent := HAComponent.switchC, compositeIndex := 1, writable := true }

/-- A static-group mapping (polled every tenth cycle). -/
def mStatic : OIDMapping :=
  { mkMapping ".1.2.4" "Model" OIDType.tString with pollGroup := "static" }

/-- A frequent mapping whose OID the device already reported missing. -/
def mGone : OIDMapping :=
  mkMapping ".1.2.5" "Gone" OIDType.tString

/-- A poller in mid-life: the static mapping is off-cadence at poll 3 and
the other OID is in the missing set, so the computed list is empty. -/
def dpAllSkipped : DevicePoller :=
  ⟨some [mStatic, mGone], ["1.2.5"], 3⟩

/-- A poller with one missing OID and one still-live mapping, at a cycle
where the static group is due. -/
def dpC3W : DevicePoller :=
  ⟨some [mSysDescr, mStatic], ["1.3.6.1.2.1.1.1.0"], 10⟩

/-- First poll of the accumulation witness: writes key a. -/
def pollA : PollInput :=
  ⟨some [("a", Value.vInt 1)], true, []⟩

/-- Second poll of the accumulation witness: writes key b. -/
def pollB : PollInput :=
  ⟨some [("b", Value.vInt 2)], true, []⟩

/-- The second event of the accumulation witness run: it carries both
keys. -/
def eventAB : StateUpdateEvent :=
  ⟨"d", [("a", Value.vInt 1), ("b", Value.vInt 2)], true⟩

/-- A trap packet carrying only the trap-OID varbind, for an OID outside
the message table. -/
def pduTrapOID : SnmpPDU :=
  ⟨".1.3.6.1.6.3.1.1.4.1.0", PDUType.objectIdentifier, Value.vStr ".9.9.9"⟩

theorem goRound_intCast (n : ℤ) : goRound (n : ℚ) = n := by
  unfold goRound
  by_cases h : (0 : ℚ) ≤ (n : ℚ)
  · rw [if_pos h]; norm_num
  · rw [if_neg h]
    have he : ((n : ℚ) - 1 / 2) = (-1 / 2 : ℚ) + n := by ring
    rw [he, Int.ceil_add_int]
    norm_num

theorem goContains_iff {α : Type} [DecidableEq α] (l : List α) (x : α) :
    goContains l x = true ↔ x ∈ l := by
  induction l with
  | nil => simp [goContains]
  | cons a l ih =>
    show (if a = x then true else goContains l x) = true ↔ x ∈ a :: l
    by_cases h : a = x
    · simp [h]
    · rw [if_neg h, ih]
      constructor
      · exact fun hx => List.mem_cons_of_mem a hx
      · intro hx
        rcases List.mem_cons.mp hx with h1 | h1
        · exact absurd h1.symm h
        · exact h1

theorem goLookup_append {α β : Type} [DecidableEq α] (l₁ l₂ : List (α × β)) (k : α) :
    goLookup (l₁ ++ l₂) k =
      match goLookup l₁ k with
      | some v => some v
      | none => goLookup l₂ k := by
  induction l₁ with
  | nil => simp [goLookup]
  | cons p l ih =>
    by_cases h : p.1 = k
    · simp [goLookup, h]
    · simp [goLookup, h, ih]

theorem goLookup_removeKey_self {α β : Type} [DecidableEq α]
    (m : List (α × β)) (k : α) : goLookup (removeKey m k) k = none := by
  induction m with
  | nil => rfl
  | cons p m ih =>
    show goLookup (if p.1 = k then removeKey m k else p :: removeKey m k) k = none
    by_cases h : p.1 = k
    · rw [if_pos h]; exact ih
    · rw [if_neg h]
      show (if p.1 = k then some p.2 else goLookup (removeKey m k) k) = none
      rw [if_neg h]; exact ih

theorem goLookup_removeKey_ne {α β : Type} [DecidableEq α]
    (m : List (α × β)) (k k' : α) (h : k' ≠ k) :
    goLookup (removeKey m k) k' = goLookup m k' := by
  induction m with
  | nil => rfl
  | cons p m ih =>
    show goLookup (if p.1 = k then removeKey m k else p :: removeKey m k) k' =
      if p.1 = k' then some p.2 else goLookup m k'
    by_cases hp : p.1 = k
    · rw [if_pos hp, ih, if_neg]
      rw [hp]
      exact fun he => h he.symm
    · rw [if_neg hp]
      show (if p.1 = k' then some p.2 else goLookup (removeKey m k) k') = _
      by_cases hp' : p.1 = k'
      · rw [if_pos hp', if_pos hp']
      · rw [if_neg hp', if_neg hp', ih]

theorem goLookup_goInsert_self {α β : Type} [DecidableEq α]
    (m : List (α × β)) (k : α) (v : β) :
    goLookup (goInsert m k v) k = some v := by
  unfold goInsert
  rw [goLookup_append, goLookup_removeKey_self]
  show (if k = k then some v else none) = some v
  rw [if_pos rfl]

theorem goLookup_goInsert_ne {α β : Type} [DecidableEq α]
    (m : List (α × β)) (k k' : α) (v : β) (h : k' ≠ k) :
    goLookup (goInsert m k v) k' = goLookup m k' := by
  unfold goInsert
  rw [goLookup_append, goLookup_removeKey_ne m k k' h]
  cases hm : goLookup m k' with
  | none =>
    have hl : goLookup [(k, v)] k' = none := by
      show (if k = k' then some v else none) = none
      rw [if_neg (fun he => h he.symm)]
    simp [hl]
  | some v' => simp

theorem removeKey_sublist {α β : Type} [DecidableEq α] (m : List (α × β)) (k : α) :
    (removeKey m k).Sublist m := by
  induction m with
  | nil => simp [removeKey]
  | cons p m ih =>
    show (if p.1 = k then removeKey m k else p :: removeKey m k).Sublist (p :: m)
    by_cases h : p.1 = k
    · rw [if_pos h]; exact ih.cons p
    · rw [if_neg h]; exact ih.cons₂ p

theorem mem_keysOf_iff_lookup_isSome {α β : Type} [DecidableEq α]
    (l : List (α × β)) (k : α) : k ∈ keysOf l ↔ (goLookup l k).isSome := by
  induction l with
  | nil => simp [keysOf, goLookup]
  | cons p l ih =>
    show k ∈ p.1 :: keysOf l ↔ (if p.1 = k then some p.2 else goLookup l k).isSome
    by_cases h : p.1 = k
    · rw [if_pos h]
      simp [h]
    · rw [if_neg h, ← ih]
      constructor
      · intro hm
        rcases List.mem_cons.mp hm with h1 | h1
        · exact absurd h1.symm h
        · exact h1
      · exact fun hm => List.mem_cons_of_mem _ hm

theorem not_mem_keysOf_removeKey {α β : Type} [DecidableEq α]
    (m : List (α × β)) (k : α) : k ∉ keysOf (removeKey m k) := by
  rw [mem_keysOf_iff_lookup_isSome, goLookup_removeKey_self]
  simp

theorem keysNodup_goInsert {α β : Type} [DecidableEq α]
    (m : List (α × β)) (k : α) (v : β) (h : keysNodup m) :
    keysNodup (goInsert m k v) := by
  have hk : keysOf (goInsert m k v) = keysOf (removeKey m k) ++ [k] := by
    unfold goInsert keysOf
    simp
  unfold keysNodup
  rw [hk, List.nodup_append]
  refine ⟨?_, by simp, ?_⟩
  · exact List.Nodup.sublist ((removeKey_sublist m k).map Prod.fst) h
  · intro a ha hb
    have hak : a = k := by simpa using hb
    rw [hak] at ha
    exact not_mem_keysOf_removeKey m k ha

theorem goLookup_reverse {α β : Type} [DecidableEq α]
    (l : List (α × β)) (k : α) (h : keysNodup l) :
    goLookup l.reverse k = goLookup l k := by
  induction l with
  | nil => rfl
  | cons p t ih =>
    have hc : keysOf (p :: t) = p.1 :: keysOf t := rfl
    have h2 : p.1 ∉ keysOf t ∧ (keysOf t).Nodup := by
      have hh : keysNodup (p :: t) := h
      unfold keysNodup at hh
      rw [hc, List.nodup_cons] at hh
      exact hh
    rw [List.reverse_cons, goLookup_append, ih h2.2]
    cases hl : goLookup t k with
    | some v =>
      have hk : p.1 ≠ k := by
        intro he
        apply h2.1
        rw [he, mem_keysOf_iff_lookup_isSome, hl]
        rfl
      show some v = if p.1 = k then some p.2 else goLookup t k
      rw [if_neg hk, hl]
    | none =>
      show (if p.1 = k then some p.2 else none) =
        if p.1 = k then some p.2 else goLookup t k
      by_cases hk : p.1 = k
      · rw [if_pos hk, if_pos hk]
      · rw [if_neg hk, if_neg hk, hl]

theorem mergeValues_lookup (base vs : List (String × Value)) (k : String) :
    goLookup (mergeValues base vs) k =
      match goLookup vs.reverse k with
      | some v => some v
      | none => goLookup base k := by
  induction vs generalizing base with
  | nil => rfl
  | cons p t ih =>
    have hstep : mergeValues base (p :: t) = mergeValues (goInsert base p.1 p.2) t := rfl
    rw [hstep, ih, List.reverse_cons, goLookup_append]
    cases ht : goLookup t.reverse k with
    | some v => simp
    | none =>
      by_cases hk : p.1 = k
      · subst hk
        have hone : goLookup [p] p.1 = some p.2 := by
          show (if p.1 = p.1 then some p.2 else none) = some p.2
          rw [if_pos rfl]
        simp [hone, goLookup_goInsert_self]
      · have hone : goLookup [p] k = none := by
          show (if p.1 = k then some p.2 else none) = none
          rw [if_neg hk]
        simp [hone, goLookup_goInsert_ne base p.1 k p.2 (fun he => hk he.symm)]

theorem mergeValues_lookup_isSome_of_base (base vs : List (String × Value))
    (k : String) (h : (goLookup base k).isSome) :
    (goLookup (mergeValues base vs) k).isSome := by
  rw [mergeValues_lookup]
  cases goLookup vs.reverse k with
  | some v => rfl
  | none => exact h

theorem mergeValues_lookup_isSome_of_vs (base vs : List (String × Value))
    (k : String) (h : (goLookup vs k).isSome) :
    (goLookup (mergeValues base vs) k).isSome := by
  rw [mergeValues_lookup]
  have hmem : k ∈ keysOf vs := (mem_keysOf_iff_lookup_isSome vs k).mpr h
  have hmem2 : k ∈ keysOf vs.reverse := by
    unfold keysOf at hmem ⊢
    rw [List.map_reverse, List.mem_reverse]
    exact hmem
  have hs := (mem_keysOf_iff_lookup_isSome vs.reverse k).mp hmem2
  cases hr : goLookup vs.reverse k with
  | none => rw [hr] at hs; simp at hs
  | some v => rfl

theorem mergeValues_lookup_of_nodup (base vs : List (String × Value))
    (k : String) (v : Value) (hnd : keysNodup vs) (h : goLookup vs k = some v) :
    goLookup (mergeValues base vs) k = some v := by
  rw [mergeValues_lookup, goLookup_reverse vs k hnd, h]

theorem svcValues_updateState (st : SvcState) (id : String)
    (vals : Option (List (String × Value))) (onl : Bool) (errs : List String) :
    svcValues (updateStateOp st id vals onl errs) id =
      match vals with
      | some vs => mergeValues (svcValues st id) vs
      | none => svcValues st id := by
  unfold updateStateOp svcValues
  rw [goLookup_goInsert_self]
  cases vals <;> rfl

theorem events_updateState (st : SvcState) (id : String)
    (vals : Option (List (String × Value))) (onl : Bool) (errs : List String) :
    (updateStateOp st id vals onl errs).events =
      st.events ++ [⟨id, svcValues (updateStateOp st id vals onl errs) id, onl⟩] := by
  unfold updateStateOp svcValues
  rw [goLookup_goInsert_self]
  rfl

theorem runPolls_cons (st : SvcState) (id : String) (p : PollInput)
    (polls : List PollInput) :
    runPolls st id (p :: polls) =
      runPolls (updateStateOp st id p.values p.online p.errors) id polls := rfl

theorem runPolls_events_length (id : String) (polls : List PollInput) :
    ∀ st : SvcState,
      (runPolls st id polls).events.length = st.events.length + polls.length := by
  induction polls with
  | nil => intro st; simp [runPolls]
  | cons p polls ih =>
    intro st
    rw [runPolls_cons, ih, events_updateState]
    simp
    omega

theorem runPolls_events_append (id : String) (polls : List PollInput) :
    ∀ st : SvcState, ∃ l, (runPolls st id polls).events = st.events ++ l := by
  induction polls with
  | nil => intro st; exact ⟨[], by simp [runPolls]⟩
  | cons p polls ih =>
    intro st
    obtain ⟨l, hl⟩ := ih (updateStateOp st id p.values p.online p.errors)
    refine ⟨⟨id, svcValues (updateStateOp st id p.values p.online p.errors) id,
      p.online⟩ :: l, ?_⟩
    rw [runPolls_cons, hl, events_updateState]
    simp

theorem runPolls_event_get (id : String) (polls : List PollInput) :
    ∀ (st : SvcState) (j : Nat), j < polls.length →
      ∃ e, (runPolls st id polls).events[st.events.length + j]? = some e ∧
        e.deviceId = id ∧
        e.values = svcValues (runPolls st id (polls.take (j + 1))) id := by
  induction polls with
  | nil =>
    intro st j hj
    exact absurd hj (by simp)
  | cons p polls ih =>
    intro st j hj
    cases j with
    | zero =>
      refine ⟨⟨id, svcValues (updateStateOp st id p.values p.online p.errors) id,
        p.online⟩, ?_, rfl, rfl⟩
      obtain ⟨l, hl⟩ :=
        runPolls_events_append id polls (updateStateOp st id p.values p.online p.errors)
      rw [runPolls_cons, hl, events_updateState, List.append_assoc, Nat.add_zero,
        List.getElem?_append_right (Nat.le_refl _)]
      simp
    | succ j' =>
      have hj' : j' < polls.length := by
        simp at hj
        omega
      obtain ⟨e, he, hid, hv⟩ :=
        ih (updateStateOp st id p.values p.online p.errors) j' hj'
      refine ⟨e, ?_, hid, ?_⟩
      · have harith : st.events.length + (j' + 1) =
            (updateStateOp st id p.values p.online p.errors).events.length + j' := by
          rw [events_updateState]
          simp
          omega
        rw [runPolls_cons, harith]
        exact he
      · rw [List.take_succ_cons]
        exact hv

theorem runPolls_values_mono (id : String) (polls : List PollInput) :
    ∀ (st : SvcState) (k : String), (goLookup (svcValues st id) k).isSome →
      (goLookup (svcValues (runPolls st id polls) id) k).isSome := by
  induction polls with
  | nil => intro st k h; exact h
  | cons p polls ih =>
    intro st k h
    rw [runPolls_cons]
    apply ih
    rw [svcValues_updateState]
    cases p.values with
    | none => exact h
    | some vs => exact mergeValues_lookup_isSome_of_base _ vs k h

theorem runPolls_values_of_poll (id : String) (polls : List PollInput) :
    ∀ (st : SvcState) (i : Nat) (p : PollInput) (k : String),
      polls[i]? = some p → pollHasKey p k = true →
      (goLookup (svcValues (runPolls st id polls) id) k).isSome := by
  induction polls with
  | nil =>
    intro st i p k hp _
    simp at hp
  | cons q polls ih =>
    intro st i p k hp hk
    cases i with
    | zero =>
      have hqp : q = p := by simpa using hp
      subst hqp
      rw [runPolls_cons]
      apply runPolls_values_mono
      rw [svcValues_updateState]
      unfold pollHasKey at hk
      cases hv : q.values with
      | none => rw [hv] at hk; simp at hk
      | some vs =>
        rw [hv] at hk
        exact mergeValues_lookup_isSome_of_vs _ vs k hk
    | succ i' =>
      have hp' : polls[i']? = some p := by simpa using hp
      rw [runPolls_cons]
      exact ih _ i' p k hp' hk

theorem getOIDs_fold_mem (dp : DevicePoller) (mappings : List OIDMapping) :
    ∀ (acc : List String) (b : String),
      b ∈ mappings.foldl
        (fun oids m =>
          if dp.pollCount % groupIntervalOf m = 0 then
            if goContains dp.missing (normalizeOID m.oid) then oids
            else if goContains oids m.oid then oids else oids ++ [m.oid]
          else oids)
        acc →
      b ∈ acc ∨ ∃ m, m ∈ mappings ∧ b = m.oid ∧
        goContains dp.missing (normalizeOID m.oid) = false := by
  induction mappings with
  | nil =>
    intro acc b hb
    exact Or.inl hb
  | cons m ms ih =>
    intro acc b hb
    rw [List.foldl_cons] at hb
    rcases ih _ b hb with hacc | ⟨m', hm', hbm', hc'⟩
    · by_cases hdue : dp.pollCount % groupIntervalOf m = 0
      · rw [if_pos hdue] at hacc
        by_cases hmiss : goContains dp.missing (normalizeOID m.oid) = true
        · rw [if_pos hmiss] at hacc
          exact Or.inl hacc
        · rw [if_neg hmiss] at hacc
          by_cases hdup : goContains acc m.oid = true
          · rw [if_pos hdup] at hacc
            exact Or.inl hacc
          · rw [if_neg hdup] at hacc
            rcases List.mem_append.mp hacc with h1 | h1
            · exact Or.inl h1
            · refine Or.inr ⟨m, List.mem_cons_self m ms, by simpa using h1, ?_⟩
              exact Bool.not_eq_true _ ▸ (by simpa using hmiss)
      · rw [if_neg hdue] at hacc
        exact Or.inl hacc
    · exact Or.inr ⟨m', List.mem_cons_of_mem m hm', hbm', hc'⟩

theorem getOIDs_fold_skip (dp : DevicePoller) (mappings : List OIDMapping)
    (h : ∀ m ∈ mappings, dp.pollCount % groupIntervalOf m ≠ 0 ∨
      goContains dp.missing (normalizeOID m.oid) = true) :
    ∀ acc : List String,
      mappings.foldl
        (fun oids m =>
          if dp.pollCount % groupIntervalOf m = 0 then
            if goContains dp.missing (normalizeOID m.oid) then oids
            else if goContains oids m.oid then oids else oids ++ [m.oid]
          else oids)
        acc = acc := by
  induction mappings with
  | nil => intro acc; rfl
  | cons m ms ih =>
    intro acc
    rw [List.foldl_cons]
    have hstep : (if dp.pollCount % groupIntervalOf m = 0 then
        if goContains dp.missing (normalizeOID m.oid) then acc
        else if goContains acc m.oid then acc else acc ++ [m.oid]
      else acc) = acc := by
      rcases h m (List.mem_cons_self m ms) with h1 | h1
      · rw [if_neg h1]
      · by_cases hdue : dp.pollCount % groupIntervalOf m = 0
        · rw [if_pos hdue, if_pos h1]
        · rw [if_neg hdue]
    rw [hstep]
    exact ih (fun m' hm' => h m' (List.mem_cons_of_mem m hm')) acc

theorem calculateDerivedValues_lookup_ne (vals : List (String × Value))
    (k : String) (h : k ≠ "Active Power") :
    goLookup (calculateDerivedValues vals) k = goLookup vals k := by
  unfold calculateDerivedValues
  by_cases h1 : toFloat64 ((goLookup vals "Active Power").getD Value.vNull) = 0
  · rw [if_pos h1]
    by_cases h2 : 0 < toFloat64 ((goLookup vals "Voltage").getD Value.vNull) ∧
        0 < toFloat64 ((goLookup vals "Total Current").getD Value.vNull)
    · rw [if_pos h2]
      exact goLookup_goInsert_ne vals "Active Power" k _ h
    · rw [if_neg h2]
  · rw [if_neg h1]

theorem keysNodup_calculateDerived (vals : List (String × Value))
    (h : keysNodup vals) : keysNodup (calculateDerivedValues vals) := by
  unfold calculateDerivedValues
  by_cases h1 : toFloat64 ((goLookup vals "Active Power").getD Value.vNull) = 0
  · rw [if_pos h1]
    by_cases h2 : 0 < toFloat64 ((goLookup vals "Voltage").getD Value.vNull) ∧
        0 < toFloat64 ((goLookup vals "Total Current").getD Value.vNull)
    · rw [if_pos h2]
      exact keysNodup_goInsert vals "Active Power" _ h
    · rw [if_neg h2]; exact h
  · rw [if_neg h1]; exact h

theorem keysNodup_nil {α β : Type} : keysNodup ([] : List (α × β)) := by
  simp [keysNodup, keysOf]

theorem findSome?_eq_none_of_all {α β : Type} (l : List α) (f : α → Option β)
    (h : ∀ x ∈ l, f x = none) : l.findSome? f = none := by
  induction l with
  | nil => rfl
  | cons a as ih =>
    rw [List.findSome?_cons]
    rw [h a (List.mem_cons_self a as)]
    exact ih (fun x hx => h x (List.mem_cons_of_mem a hx))

theorem findSome?_eq_some_of_unique {α β : Type} (l : List α) (f : α → Option β)
    (b : β) (hex : ∃ a ∈ l, f a = some b)
    (huniq : ∀ a ∈ l, ∀ c, f a = some c → c = b) : l.findSome? f = some b := by
  induction l with
  | nil => simp at hex
  | cons a as ih =>
    rw [List.findSome?_cons]
    cases hfa : f a with
    | some c =>
      rw [huniq a (List.mem_cons_self a as) c hfa]
    | none =>
      apply ih
      · rcases hex with ⟨a', ha', hfa'⟩
        rcases List.mem_cons.mp ha' with h1 | h1
        · rw [h1] at hfa'
          rw [hfa'] at hfa
          exact absurd hfa (by simp)
        · exact ⟨a', h1, hfa'⟩
      · exact fun x hx c hc => huniq x (List.mem_cons_of_mem a hx) c hc

/-- C10: whenever the computed OID list of a poll cycle is empty — the device
has no profile, or a profile exists and every mapping is either
off-cadence for this cycle or in the learned missing-OID set — doPoll
issues a GET for the two base OIDs sysDescr (.1.3.6.1.2.1.1.1.0) and
sysUpTime (.1.3.6.1.2.1.1.3.0) instead of skipping the cycle. -/
theorem c10_empty_poll_list_falls_back_to_base_oids (dp : DevicePoller)
    (h : ∀ mappings, dp.profile = some mappings → ∀ m ∈ mappings,
      dp.pollCount % groupIntervalOf m ≠ 0 ∨
        goContains dp.missing (normalizeOID m.oid) = true) :
    computePollOIDs dp = baseOIDs := by
  have hempty : getOIDsToPoll dp = [] := by
    unfold getOIDsToPoll
    cases hp : dp.profile with
    | none => rfl
    | some mappings => exact getOIDs_fold_skip dp mappings (h mappings hp) []
  unfold computePollOIDs
  rw [hempty]
  rfl

theorem c10_witness :
    computePollOIDs dpAllSkipped = baseOIDs ∧
    dpAllSkipped.profile = some [mStatic, mGone] ∧ dpAllSkipped.pollCount = 3 := by
  refine ⟨?_, rfl, rfl⟩
  apply c10_empty_poll_list_falls_back_to_base_oids
  intro mappings hm
  have hmp : dpAllSkipped.profile = some [mStatic, mGone] := rfl
  rw [hmp] at hm
  have hme : mappings = [mStatic, mGone] := (Option.some.inj hm).symm
  rw [hme]
  decide

/-- C3 (amended): for every device, every OID in its missing set is
skipped by getOIDsToPoll — no OID of the profile-computed batch
normalizes to a missing OID.  (The base-OID fallback batch that doPoll
substitutes when this list is empty is exempt: see the
counterexample.) -/
theorem c3_missing_oids_skipped_in_computed_list (dp : DevicePoller)
    (o b : String) (ho : goContains dp.missing o = true)
    (hb : b ∈ getOIDsToPoll dp) : normalizeOID b ≠ o := by
  unfold getOIDsToPoll at hb
  cases hp : dp.profile with
  | none => rw [hp] at hb; simp at hb
  | some mappings =>
    rw [hp] at hb
    rcases getOIDs_fold_mem dp mappings [] b hb with h1 | ⟨m, _, hbm, hc⟩
    · simp at h1
    · rw [hbm]
      intro he
      rw [he, ho] at hc
      simp at hc

theorem c3_witness :
    goContains dpC3W.missing "1.3.6.1.2.1.1.1.0" = true ∧
    ".1.2.4" ∈ getOIDsToPoll dpC3W ∧
    normalizeOID ".1.2.4" ≠ "1.3.6.1.2.1.1.1.0" := by
  refine ⟨by decide, by decide, ?_⟩
  exact c3_missing_oids_skipped_in_computed_list dpC3W "1.3.6.1.2.1.1.1.0" ".1.2.4"
    (by decide) (by decide)

/-- C3 counterexample: with a one-mapping profile sitting on sysDescr,
the first poll learns the OID as missing; the computed list of the next cycle
is empty, so doPoll sends the base-OID fallback batch — a GET batch for
this device that does contain the missing OID (its first element
normalizes to it), contradicting the claim that no subsequent GET batch
contains a missing OID before the device is removed and re-added. -/
theorem c3_counterexample :
    goContains dpSys1.missing "1.3.6.1.2.1.1.1.0" = true ∧
    (pollOnce dpSys1 []).2.1 = [".1.3.6.1.2.1.1.1.0", ".1.3.6.1.2.1.1.3.0"] ∧
    normalizeOID ".1.3.6.1.2.1.1.1.0" = "1.3.6.1.2.1.1.1.0" := by
  exact ⟨by decide, by decide, by decide⟩

/-- C7 (amended): RemoveDevice deletes the stored state entry and emits
no StateUpdateEvent itself — but it does not wait for the poll loop, so
an in-flight poll may still run updateState afterwards (see the
counterexample for the event it then emits). -/
theorem c7_remove_device_deletes_state_without_event (st : SvcState) (id : String) :
    (removeDevice st id).events = st.events ∧
    goLookup (removeDevice st id).states id = none :=
  ⟨rfl, goLookup_removeKey_self st.states id⟩

/-- C7 counterexample: RemoveDevice contains no join on the poll
goroutine (the service WaitGroup is only awaited in Stop), and doPoll
never checks the stop signal mid-cycle, so a poll in flight when
RemoveDevice returns finishes by calling updateState, which recreates
the deleted state entry and emits one more StateUpdateEvent for the
removed id.  The trace below is that interleaving: add, remove, then
the in-flight updateState; its event list afterwards holds an event
with deviceId d, and the state map holds d again. -/
theorem c7_counterexample :
    (removeDevice (addDevice initSvc "d") "d").events = [] ∧
    (updateStateOp (removeDevice (addDevice initSvc "d") "d") "d"
        (some [("k", Value.vInt 1)]) true []).events.map
      (fun e => e.deviceId) = ["d"] ∧
    (goLookup (updateStateOp (removeDevice (addDevice initSvc "d") "d") "d"
        (some [("k", Value.vInt 1)]) true []).states "d").isSome = true := by
  exact ⟨rfl, by decide, by decide⟩

/-- C4: for a composite_switch mapping applied to a string raw value,
transformValue behaves exactly as the claim states: split on the
separator (default comma), null when the 0-based index is at or past
the part count, else trim the part, map a parsed integer through
enumValues, return the bare integer when unmapped, and the trimmed
string when non-numeric.  (Integer parsing is the Sscanf leading-digit
scan the source uses.) -/
theorem c4_composite_transform_matches_claim (m : OIDMapping) (s : String)
    (h : m.mtype = OIDType.tCompositeSwitch) :
    transformValue (Value.vStr s) m = compositeClaimSpec m s := by
  unfold transformValue
  rw [if_pos h]
  rfl

theorem c4_witness :
    mComposite2.mtype = OIDType.tCompositeSwitch ∧
    transformValue (Value.vStr "1,0,1,-1") mComposite2 =
      compositeClaimSpec mComposite2 "1,0,1,-1" ∧
    compositeClaimSpec mComposite2 "1,0,1,-1" = Value.vStr "Off" := by
  exact ⟨rfl, c4_composite_transform_matches_claim mComposite2 "1,0,1,-1" rfl, by rfl⟩

/-- C2 (amended): for every mapping whose type is not composite_switch,
with scale not zero, a numeric raw input x (ints, floats, and strings
that parse as numbers) transforms to round(x * scale, d) with d = 3 when
scale < 0.01 and d = 2 otherwise; a non-numeric raw input is returned
unchanged.  (composite_switch mappings never reach the scale branch: see
the counterexample.) -/
theorem c2_scale_rounding_noncomposite (m : OIDMapping) (v : Value)
    (hc : m.mtype ≠ OIDType.tCompositeSwitch) (hs : m.scale ≠ 0) :
    (∀ x, coerceNumeric v = some x →
      transformValue v m = Value.vFloat (scaleRoundSpec m.scale x)) ∧
    (coerceNumeric v = none → transformValue v m = v) := by
  constructor
  · intro x hx
    simp only [transformValue]
    rw [if_neg hc, if_pos hs, hx]
    unfold scaleRoundSpec roundTo
    by_cases hlt : m.scale < 1 / 100
    · simp only [hlt, if_true, ite_true]
      norm_num
    · simp only [hlt, if_false, ite_false]
      norm_num
  · intro hx
    simp only [transformValue]
    rw [if_neg hc, if_pos hs, hx]
    by_cases he : m.mtype = OIDType.tEnum
    · rw [if_pos he]
      cases v with
      | vInt n => simp [coerceNumeric] at hx
      | vFloat q => simp [coerceNumeric] at hx
      | vStr s => rfl
      | vNull => rfl
    · rw [if_neg he]

theorem c2_witness :
    transformValue (Value.vInt 126) mScaleTenth =
      Value.vFloat (scaleRoundSpec mScaleTenth.scale 126) ∧
    scaleRoundSpec mScaleTenth.scale 126 = 63 / 5 := by
  constructor
  · refine (c2_scale_rounding_noncomposite mScaleTenth (Value.vInt 126)
      (by decide) ?_).1 126 ?_
    · show (1 : ℚ) / 10 ≠ 0
      norm_num
    · show some ((126 : Int) : ℚ) = some 126
      norm_num
  · unfold scaleRoundSpec roundTo
    have hlt : ¬(mScaleTenth.scale < 1 / 100) := by
      show ¬((1 : ℚ) / 10 < 1 / 100)
      norm_num
    rw [if_neg hlt]
    have harg : (126 : ℚ) * mScaleTenth.scale * (10 : ℚ) ^ (2 : ℕ) =
        ((1260 : ℤ) : ℚ) := by
      show (126 : ℚ) * (1 / 10) * (10 : ℚ) ^ (2 : ℕ) = ((1260 : ℤ) : ℚ)
      norm_num
    rw [harg, goRound_intCast]
    norm_num

/-- C2 counterexample: the claim quantifies over every mapping with
scale not zero, but transformValue dispatches composite_switch mappings
to the composite extractor before the scale branch, so a
composite_switch mapping with scale 0.5 leaves the numeric raw 4
untouched instead of emitting round(4 times 0.5, 2) = 2. -/
theorem c2_counterexample :
    mCompScale.scale ≠ 0 ∧
    coerceNumeric (Value.vInt 4) = some 4 ∧
    transformValue (Value.vInt 4) mCompScale = Value.vInt 4 ∧
    Value.vInt 4 ≠ Value.vFloat (scaleRoundSpec mCompScale.scale 4) := by
  refine ⟨?_, ?_, rfl, ?_⟩
  · show (1 : ℚ) / 2 ≠ 0
    norm_num
  · show some ((4 : Int) : ℚ) = some 4
    norm_num
  · intro h
    exact Value.noConfusion h

/-- C5 (amended): a composite_switch mapping whose index is out of range
for the separator-split string a poll receives transforms to null, and
that null IS stored: after the poll cycle the device value map carries
the mapping name bound to null (the claim says the entry is absent; the
source stores the nil before the nil check, see the counterexample). -/
theorem c5_out_of_range_composite_null_is_stored (m : OIDMapping) (s : String)
    (pdu : SnmpPDU) (ht : m.mtype = OIDType.tCompositeSwitch)
    (hp : pdu.ptype = PDUType.octetString) (hv : pdu.value = Value.vStr s)
    (hn : normalizeOID pdu.name = normalizeOID m.oid)
    (hidx : m.compositeIndex ≥ (goSplit s (sepOf m)).length)
    (hname : m.name ≠ pdu.name) (hap : m.name ≠ "Active Power") :
    goLookup (svcValues (pollCycleState "dev" [m] [] [pdu]) "dev") m.name =
      some Value.vNull := by
  have htrans : transformValue (Value.vStr s) m = Value.vNull := by
    simp only [transformValue, extractCompositeValue]
    rw [if_pos ht, if_pos hidx]
  have hproc : processVariables (oidLookup [m]) [] [] [pdu] =
      ([], goInsert (goInsert [] m.name Value.vNull) pdu.name (Value.vStr s)) := by
    unfold processVariables
    rw [List.foldl_cons, List.foldl_nil]
    have hns : ¬(pdu.ptype = PDUType.noSuchInstance ∨
        pdu.ptype = PDUType.noSuchObject) := by
      rw [hp]
      simp
    have hpv : parseValue pdu = Value.vStr s := by
      unfold parseValue
      rw [hp]
      exact hv
    have hfilter : oidLookup [m] (normalizeOID pdu.name) = [m] := by
      unfold oidLookup
      simp [List.filter, hn]
    simp only [if_neg hns, hpv, hfilter]
    have hvn : ¬(Value.vStr s = Value.vNull) := by simp
    rw [if_neg hvn]
    rw [List.foldl_cons, List.foldl_nil, htrans]
  unfold pollCycleState
  rw [hproc]
  rw [svcValues_updateState]
  show goLookup (mergeValues _ (calculateDerivedValues
    (goInsert (goInsert [] m.name Value.vNull) pdu.name (Value.vStr s)))) m.name =
    some Value.vNull
  have hnd1 : keysNodup (goInsert (goInsert [] m.name Value.vNull) pdu.name
      (Value.vStr s)) :=
    keysNodup_goInsert _ _ _ (keysNodup_goInsert _ _ _ keysNodup_nil)
  have hlook1 : goLookup (goInsert (goInsert [] m.name Value.vNull) pdu.name
      (Value.vStr s)) m.name = some Value.vNull := by
    rw [goLookup_goInsert_ne _ pdu.name m.name _ hname, goLookup_goInsert_self]
  exact mergeValues_lookup_of_nodup _ _ _ _
    (keysNodup_calculateDerived _ hnd1)
    (by rw [calculateDerivedValues_lookup_ne _ _ hap]; exact hlook1)

theorem c5_witness :
    goLookup (svcValues (pollCycleState "dev" [mOutlet4] [] [pduComposite]) "dev")
      mOutlet4.name = some Value.vNull :=
  c5_out_of_range_composite_null_is_stored mOutlet4 "1,0" pduComposite
    rfl rfl rfl rfl (by decide) (by decide) (by decide)

/-- C5 counterexample: the out-of-range composite transform of the
two-field reply 1,0 for index 3 yields null, and after the poll cycle
the device value map holds the entry Outlet 4 State bound to null — the
claim says the map has no entry under that name, but the lookup is some
null, not none. -/
theorem c5_counterexample :
    transformValue (Value.vStr "1,0") mOutlet4 = Value.vNull ∧
    goLookup (svcValues (pollCycleState "dev" [mOutlet4] [] [pduComposite]) "dev")
      "Outlet 4 State" = some Value.vNull ∧
    (some Value.vNull ≠ (none : Option Value)) := by
  exact ⟨by rfl, by decide, by simp⟩

theorem determineSeverity_eq_spec (oid : String) :
    determineSeverity oid = severitySpec oid := by
  by_cases h1 : oid = ".1.3.6.1.4.1.318.2.3.1" <;>
  by_cases h2 : oid = ".1.3.6.1.4.1.318.2.3.5" <;>
  by_cases h3 : oid = ".1.3.6.1.4.1.318.2.3.2" <;>
  by_cases h4 : oid = ".1.3.6.1.4.1.318.2.3.4" <;>
    simp_all [determineSeverity, severitySpec]

theorem formatMessage_eq_amended (oid : String) (vbs : List (String × Value)) :
    formatMessage oid vbs = messageAmendedSpec oid vbs.length := by
  by_cases h1 : oid = ".1.3.6.1.4.1.318.2.3.1"
  · rw [h1]; rfl
  by_cases h2 : oid = ".1.3.6.1.4.1.318.2.3.2"
  · rw [h2]; rfl
  by_cases h3 : oid = ".1.3.6.1.4.1.318.2.3.5"
  · rw [h3]; rfl
  by_cases h4 : oid = ".1.3.6.1.4.1.318.2.3.4"
  · rw [h4]; rfl
  have hl : goLookup messageTable oid = none := by
    simp [goLookup, messageTable, Ne.symm h1, Ne.symm h2, Ne.symm h3, Ne.symm h4]
  unfold formatMessage messageAmendedSpec
  rw [if_neg h1, if_neg h2, if_neg h3, if_neg h4, hl]

/-- C9 (amended): the TrapLog handleTrap builds carries the claimed
severity table exactly (critical for .1.3.6.1.4.1.318.2.3.1 and .5,
warning for .2 and .4, info otherwise) and the claimed message table,
but the fallback message is `Trap oid with n variables` only when the
trap carried at least one variable; a variable-less trap gets the
shorter `Trap oid` (see the counterexample). -/
theorem c9_trap_severity_and_message (vars : List SnmpPDU) :
    (trapLogOf vars).2.1 = severitySpec (trapLogOf vars).1.trapOID ∧
    (trapLogOf vars).2.2 =
      messageAmendedSpec (trapLogOf vars).1.trapOID (trapLogOf vars).1.vbs.length := by
  unfold trapLogOf
  exact ⟨determineSeverity_eq_spec _, formatMessage_eq_amended _ _⟩

/-- C9 counterexample: a trap whose only varbind is the trap OID itself
(an OID outside the message table) yields the message `Trap .9.9.9`,
not the claimed fallback `Trap .9.9.9 with 0 variables`. -/
theorem c9_counterexample :
    (trapLogOf [pduTrapOID]).1.trapOID = ".9.9.9" ∧
    (trapLogOf [pduTrapOID]).1.vbs.length = 0 ∧
    (trapLogOf [pduTrapOID]).2.2 = "Trap .9.9.9" ∧
    messageClaimSpec ".9.9.9" 0 = "Trap .9.9.9 with 0 variables" ∧
    (trapLogOf [pduTrapOID]).2.2 ≠ messageClaimSpec ".9.9.9" 0 := by
  exact ⟨rfl, rfl, rfl, by decide, by decide⟩

theorem fold_options_no_new (entries : List (Int × String)) :
    ∀ opts, (∀ p ∈ entries, goContains opts p.2 = true) →
      entries.foldl
        (fun opts p => if goContains opts p.2 then opts else opts ++ [p.2])
        opts = opts := by
  induction entries with
  | nil => intro opts _; rfl
  | cons p es ih =>
    intro opts h
    rw [List.foldl_cons, if_pos (h p (List.mem_cons_self p es))]
    exact ih opts (fun q hq => h q (List.mem_cons_of_mem p hq))

theorem goLookup_eq_some_of_mem_nodup {α β : Type} [DecidableEq α]
    (l : List (α × β)) (k : α) (v : β) (hnd : keysNodup l) (hm : (k, v) ∈ l) :
    goLookup l k = some v := by
  induction l with
  | nil => simp at hm
  | cons p t ih =>
    have hpair : keysNodup (p :: t) = (p.1 :: keysOf t).Nodup := rfl
    rw [hpair, List.nodup_cons] at hnd
    rcases List.mem_cons.mp hm with h1 | h1
    · show (if p.1 = k then some p.2 else goLookup t k) = some v
      rw [← h1]
      rw [if_pos rfl]
    · have hk : p.1 ≠ k := by
        intro he
        apply hnd.1
        rw [he]
        exact List.mem_map.mpr ⟨(k, v), h1, rfl⟩
      show (if p.1 = k then some p.2 else goLookup t k) = some v
      rw [if_neg hk]
      exact ih hnd.2 h1

/-- C8 (amended): when a select mapping enum keys are exactly 1..count
(distinct, all within that range), PublishDevice emits the option list
by ascending integer key — the first scan collects every value and the
second map-order pass appends nothing, so the list is deterministic.
For keys outside 1..count the second pass appends the leftover values in
map-iteration order, which is neither ascending-key ordered nor
deterministic (see the counterexample). -/
theorem c8_select_options_ascending_for_contiguous_keys
    (entries : List (Int × String)) (hnd : keysNodup entries)
    (hk : ∀ k ∈ keysOf entries, 1 ≤ k ∧ k ≤ (entries.length : Int)) :
    buildSelectOptions entries =
      (List.range entries.length).filterMap
        (fun j => goLookup entries (Int.ofNat j + 1)) := by
  unfold buildSelectOptions
  apply fold_options_no_new
  intro p hp
  rw [goContains_iff]
  have hkm : p.1 ∈ keysOf entries := List.mem_map.mpr ⟨p, hp, rfl⟩
  obtain ⟨h1, h2⟩ := hk p.1 hkm
  have hjmem : (p.1 - 1).toNat ∈ List.range entries.length := by
    rw [List.mem_range]
    omega
  have hjlook : goLookup entries (Int.ofNat (p.1 - 1).toNat + 1) = some p.2 := by
    have hj : (Int.ofNat (p.1 - 1).toNat + 1) = p.1 := by
      have hcast : Int.ofNat (p.1 - 1).toNat = (((p.1 - 1).toNat : Nat) : Int) := rfl
      rw [hcast]
      omega
    rw [hj]
    exact goLookup_eq_some_of_mem_nodup entries p.1 p.2 hnd hp
  exact List.mem_filterMap.mpr ⟨(p.1 - 1).toNat, hjmem, hjlook⟩

theorem c8_witness :
    keysNodup [((1 : Int), "On"), (2, "Off")] ∧
    buildSelectOptions [((1 : Int), "On"), (2, "Off")] = ["On", "Off"] := by
  constructor
  · decide
  · rw [c8_select_options_ascending_for_contiguous_keys
      [((1 : Int), "On"), (2, "Off")] (by decide) (by decide)]
    decide

/-- C8 counterexample: two association lists that represent the same Go
map (they are permutations of each other, keys 3 and 5) but correspond
to different map-iteration orders produce different option lists, so the
emitted list is not ascending-key ordered and not deterministic for a
given enumValues mapping once the keys are not contiguous from 1. -/
theorem c8_counterexample :
    List.Perm [((3 : Int), "A"), (5, "B")] [((5 : Int), "B"), (3, "A")] ∧
    buildSelectOptions [((3 : Int), "A"), (5, "B")] = ["A", "B"] ∧
    buildSelectOptions [((5 : Int), "B"), (3, "A")] = ["B", "A"] ∧
    buildSelectOptions [((3 : Int), "A"), (5, "B")] ≠
      buildSelectOptions [((5 : Int), "B"), (3, "A")] := by
  exact ⟨by decide, by decide, by decide, by decide⟩

theorem findSwitchKey_on (entries : List (Int × String)) (k : Int) (v : String)
    (hkv : (k, v) ∈ entries) (hfold : equalFold v "On" = true)
    (huniq : ∀ p ∈ entries, equalFold p.2 "On" = true → p.1 = k) :
    findSwitchKey entries "ON" = some k := by
  have h1 : (("ON" : String) == "ON") = true := by decide
  have h2 : (("ON" : String) == "OFF") = false := by decide
  unfold findSwitchKey
  apply findSome?_eq_some_of_unique
  · refine ⟨(k, v), hkv, ?_⟩
    simp [hfold, h1, h2]
  · intro p hp c hc
    rw [h1, h2] at hc
    by_cases hcp : equalFold p.2 "On" = true
    · rw [hcp] at hc
      simp at hc
      rw [hc.symm]
      exact huniq p hp hcp
    · rw [Bool.not_eq_true] at hcp
      rw [hcp] at hc
      simp at hc

theorem findSwitchKey_off (entries : List (Int × String)) (k : Int) (v : String)
    (hkv : (k, v) ∈ entries) (hfold : equalFold v "Off" = true)
    (huniq : ∀ p ∈ entries, equalFold p.2 "Off" = true → p.1 = k) :
    findSwitchKey entries "OFF" = some k := by
  have h1 : (("OFF" : String) == "ON") = false := by decide
  have h2 : (("OFF" : String) == "OFF") = true := by decide
  unfold findSwitchKey
  apply findSome?_eq_some_of_unique
  · refine ⟨(k, v), hkv, ?_⟩
    simp [hfold, h1, h2]
  · intro p hp c hc
    rw [h1, h2] at hc
    by_cases hcp : equalFold p.2 "Off" = true
    · rw [hcp] at hc
      simp at hc
      rw [hc.symm]
      exact huniq p hp hcp
    · rw [Bool.not_eq_true] at hcp
      rw [hcp] at hc
      simp at hc

theorem findSwitchKey_none_on (entries : List (Int × String))
    (h : ∀ p ∈ entries, equalFold p.2 "On" = false) :
    findSwitchKey entries "ON" = none := by
  have h2 : (("ON" : String) == "OFF") = false := by decide
  unfold findSwitchKey
  apply findSome?_eq_none_of_all
  intro p hp
  simp [h p hp, h2]

theorem findSwitchKey_none_off (entries : List (Int × String))
    (h : ∀ p ∈ entries, equalFold p.2 "Off" = false) :
    findSwitchKey entries "OFF" = none := by
  have h1 : (("OFF" : String) == "ON") = false := by decide
  unfold findSwitchKey
  apply findSome?_eq_none_of_all
  intro p hp
  simp [h p hp, h1]

/-- C6: inbound switch commands with case-insensitive ON/OFF payloads:
when enumValues holds an entry labelled On (resp. Off), the SET value is
the integer key of that entry; with no such label the defaults are ON to 1
and OFF to 2; and for a composite_switch command with no enum labels the
field spliced into the current composite string defaults to 1 for ON and
0 for OFF.  (The label match is unique by hypothesis, as Go map
iteration order otherwise picks an arbitrary matching entry.) -/
theorem c6_switch_command_conversion (m : OIDMapping) (payload : String)
    (hsw : m.haComponent = HAComponent.switchC) :
    ((∀ k v, (k, v) ∈ m.enumValues → equalFold v "On" = true →
        (∀ p ∈ m.enumValues, equalFold p.2 "On" = true → p.1 = k) →
        asciiUpper payload = "ON" →
        convertPayloadToSNMPValue payload m = Except.ok (SetValue.i k)) ∧
     (∀ k v, (k, v) ∈ m.enumValues → equalFold v "Off" = true →
        (∀ p ∈ m.enumValues, equalFold p.2 "Off" = true → p.1 = k) →
        asciiUpper payload = "OFF" →
        convertPayloadToSNMPValue payload m = Except.ok (SetValue.i k)) ∧
     ((∀ p ∈ m.enumValues, equalFold p.2 "On" = false) →
        asciiUpper payload = "ON" →
        convertPayloadToSNMPValue payload m = Except.ok (SetValue.i 1)) ∧
     ((∀ p ∈ m.enumValues, equalFold p.2 "Off" = false) →
        asciiUpper payload = "OFF" →
        convertPayloadToSNMPValue payload m = Except.ok (SetValue.i 2)) ∧
     (∀ (m2 : OIDMapping) (current : String),
        (∀ p ∈ m2.enumValues,
          equalFold p.2 "On" = false ∧ equalFold p.2 "Off" = false) →
        m2.compositeIndex < (goSplit current (sepOf m2)).length →
        ((asciiUpper payload = "ON" →
          convertCompositePayloadToSNMPValue payload current m2 =
            Except.ok (String.intercalate (sepOf m2)
              ((goSplit current (sepOf m2)).set m2.compositeIndex "1"))) ∧
         (asciiUpper payload = "OFF" →
          convertCompositePayloadToSNMPValue payload current m2 =
            Except.ok (String.intercalate (sepOf m2)
              ((goSplit current (sepOf m2)).set m2.compositeIndex "0")))))) := by
  refine ⟨?_, ?_, ?_, ?_, ?_⟩
  · intro k v hkv hfold huniq hOn
    simp only [convertPayloadToSNMPValue]
    rw [if_pos hsw, hOn, findSwitchKey_on m.enumValues k v hkv hfold huniq]
  · intro k v hkv hfold huniq hOff
    simp only [convertPayloadToSNMPValue]
    rw [if_pos hsw, hOff, findSwitchKey_off m.enumValues k v hkv hfold huniq]
  · intro hno hOn
    simp only [convertPayloadToSNMPValue]
    rw [if_pos hsw, hOn, findSwitchKey_none_on m.enumValues hno]
    rfl
  · intro hno hOff
    simp only [convertPayloadToSNMPValue]
    rw [if_pos hsw, hOff, findSwitchKey_none_off m.enumValues hno]
    rw [if_neg (by decide : ¬(("OFF" : String) = "ON"))]
  · intro m2 current hno hidx
    constructor
    · intro hOn
      simp only [convertCompositePayloadToSNMPValue]
      rw [hOn, findSwitchKey_none_on m2.enumValues (fun p hp => (hno p hp).1)]
      rw [if_neg (Nat.not_le.mpr hidx)]
      rfl
    · intro hOff
      simp only [convertCompositePayloadToSNMPValue]
      rw [hOff, findSwitchKey_none_off m2.enumValues (fun p hp => (hno p hp).2)]
      rw [if_neg (Nat.not_le.mpr hidx)]
      rfl

theorem c6_witness :
    convertPayloadToSNMPValue "on" mSwitchEnum = Except.ok (SetValue.i 1) ∧
    convertPayloadToSNMPValue "Off" mSwitchEnum = Except.ok (SetValue.i 2) ∧
    convertPayloadToSNMPValue "ON" mSwitchPlain = Except.ok (SetValue.i 1) ∧
    convertPayloadToSNMPValue "OFF" mSwitchPlain = Except.ok (SetValue.i 2) ∧
    convertCompositePayloadToSNMPValue "ON" "0,0,0" mCompositeCmd =
      Except.ok "0,1,0" ∧
    convertCompositePayloadToSNMPValue "OFF" "1,1,1" mCompositeCmd =
      Except.ok "1,0,1" := by
  refine ⟨?_, ?_, ?_, ?_, ?_, ?_⟩
  · exact (c6_switch_command_conversion mSwitchEnum "on" rfl).1 1 "On"
      (by decide) (by decide) (by decide) (by decide)
  · exact (c6_switch_command_conversion mSwitchEnum "Off" rfl).2.1 2 "Off"
      (by decide) (by decide) (by decide) (by decide)
  · exact (c6_switch_command_conversion mSwitchPlain "ON" rfl).2.2.1
      (by decide) (by decide)
  · exact (c6_switch_command_conversion mSwitchPlain "OFF" rfl).2.2.2.1
      (by decide) (by decide)
  · exact ((c6_switch_command_conversion mSwitchPlain "ON" rfl).2.2.2.2
      mCompositeCmd "0,0,0" (by decide) (by decide)).1 (by decide)
  · exact ((c6_switch_command_conversion mSwitchPlain "OFF" rfl).2.2.2.2
      mCompositeCmd "1,1,1" (by decide) (by decide)).2 (by decide)

/-- C1: every StateUpdateEvent emitted for a device carries every key
any completed poll has written since the device was added: updateState
merges poll values into the stored map (overwriting, never deleting)
and each event carries a copy of the full accumulated map, so the event
observed after poll j contains every key written by any poll i ≤ j. -/
theorem c1_event_values_accumulate (id : String) (polls : List PollInput)
    (i j : Nat) (hij : i ≤ j) (p : PollInput) (hp : polls[i]? = some p)
    (k : String) (hk : pollHasKey p k = true) (e : StateUpdateEvent)
    (he : (runPolls (addDevice initSvc id) id polls).events[j]? = some e) :
    (goLookup e.values k).isSome = true := by
  have h0 : (addDevice initSvc id).events = [] := rfl
  have hj : j < polls.length := by
    by_contra hcon
    push_neg at hcon
    have hlen : (runPolls (addDevice initSvc id) id polls).events.length =
        polls.length := by
      rw [runPolls_events_length, h0]
      simp
    have hnone : (runPolls (addDevice initSvc id) id polls).events[j]? = none := by
      apply List.getElem?_eq_none
      rw [hlen]
      exact hcon
    rw [hnone] at he
    exact Option.noConfusion he
  obtain ⟨e', he', hid, hv⟩ := runPolls_event_get id polls (addDevice initSvc id) j hj
  rw [h0] at he'
  simp only [List.length_nil, Nat.zero_add] at he'
  have hee : e = e' := Option.some.inj (he.symm.trans he')
  rw [hee, hv]
  apply runPolls_values_of_poll id (polls.take (j + 1)) (addDevice initSvc id)
    i p k ?_ hk
  rw [List.getElem?_take, if_pos (by omega : i < j + 1)]
  exact hp

theorem c1_witness :
    (runPolls (addDevice initSvc "d") "d" [pollA, pollB]).events[1]? =
      some eventAB ∧
    (goLookup eventAB.values "a").isSome = true := by
  constructor
  · decide
  · exact c1_event_values_accumulate "d" [pollA, pollB] 0 1 (by decide) pollA
      (by decide) "a" (by decide) eventAB (by decide)
